import Mathlib

/-!
Verification of the event-handling core of DraggableNetwork.py: nearest-node
hit testing, the drag/pan state machine of the pointer callbacks, the scroll
zoom handler, and the position save/load text flow.

Coordinates are modelled as rationals (the Python floats are ideal reals in
the spec; all claims are about exact arithmetic identities or inequalities
that hold identically over ℚ/ℝ).  The zoom handler uses natural logarithms,
so its viewport is modelled over ℝ.
-/

namespace DraggableNetwork

/-- A point in either data space or screen space. -/
abbrev Point : Type := ℚ × ℚ

/-- The data-to-screen transform `ax.transData` is affine and axis-aligned:
screen x = ax·x + bx, screen y = ay·y + by.  The hit tester is verified for
an arbitrary such transform. -/
structure Affine2 where
  ax : ℚ
  bx : ℚ
  ay : ℚ
  bY : ℚ
deriving DecidableEq, Repr

def Affine2.apply (t : Affine2) (p : Point) : Point :=
  (t.ax * p.1 + t.bx, t.ay * p.2 + t.bY)

/-- The squared screen-space distance from the event position to a node's
transformed position.  The source computes `d = sqrt((xt-ex)^2+(yt-ey)^2)`;
since sqrt is strictly monotone on nonnegatives we carry the square, which
preserves both the argmin and every threshold comparison (see `sqrtGeB_iff`). -/
def distSq (t : Affine2) (ex ey : ℚ) (p : Point) : ℚ :=
  ((t.apply p).1 - ex) ^ 2 + ((t.apply p).2 - ey) ^ 2

/-- Decides `sqrt s ≥ r` for a nonnegative radicand `s`, without leaving ℚ:
true iff `r ≤ 0` or `r² ≤ s`.  This is exactly the comparison
`d[ind] >= threshold` of the source with `s = d²`. -/
def sqrtGeB (s r : ℚ) : Bool :=
  decide (r ≤ 0) || decide (r * r ≤ s)

/-- First index of the minimum in `xs`, continuing a scan whose best value so
far is `b`, found at index `bi`, with `xs` starting at absolute index `i`.
Replacement only on strict decrease, so the first occurrence wins,
as in numpy's argmin. -/
def argminFrom : List ℚ → ℚ → Nat → Nat → Nat
  | [], _, bi, _ => bi
  | x :: xs, b, bi, i => if x < b then argminFrom xs x i (i + 1) else argminFrom xs b bi (i + 1)

/-- The index returned by `d.argmin()`: first index attaining the minimum.
Undefined behaviour on the empty list (numpy raises), modelled as 0. -/
def npArgmin : List ℚ → Nat
  | [] => 0
  | x :: xs => argminFrom xs x 0 1

/-- Value held at the index `argminFrom` returns: the incoming best value
when the scan keeps it, otherwise the element of `xs` it switched to
(specification artifact used to state `argminFrom_spec`). -/
def argminVal (xs : List ℚ) (b : ℚ) (bi i : Nat) : ℚ :=
  if argminFrom xs b bi i = bi then b else xs.getD (argminFrom xs b bi i - i) 0

/-- Node-selection radius, `DraggableNetwork.epsilon` in the source. -/
def epsilon : ℚ := 30

/-- The hit tester `get_ind_under_point`: transform all node offsets to screen
space, take the (squared) distance to the event position, select the argmin,
and keep it only if its distance is strictly below the threshold: the fixed
`epsilon` when `node_size` is `None`, that node's entry of `node_size_radius`
otherwise. -/
def get_ind_under_point (t : Affine2) (offsets : List Point) (ex ey : ℚ)
    (node_size : Option ℚ) (node_size_radius : List ℚ) : Option Nat :=
  let d := offsets.map (distSq t ex ey)
  let ind := npArgmin d
  match node_size with
  | none => if sqrtGeB (d.getD ind 0) epsilon then none else some ind
  | some _ => if sqrtGeB (d.getD ind 0) (node_size_radius.getD ind 0) then none else some ind

/-- A pointer event: screen position (x, y), data-space position
(xdata, ydata), whether the pointer is inside the axes, and the mouse button
held (`some 1` is the primary button, `none` no button). -/
structure Event where
  x : ℚ
  y : ℚ
  xdata : ℚ
  ydata : ℚ
  inaxes : Bool
  button : Option Nat
deriving DecidableEq, Repr

/-- The mutable state of the widget touched by the pointer callbacks:
node offsets, the optional mirror collection nodes0, the edge artists (each
stores its two endpoint positions by value), the label artists (text and
position), the viewport limits, and the two selection fields `_ind`
(selected node index) and `move_from` (panning anchor; the source's 0 is
modelled as `none`). -/
structure DNState where
  nodes : List Point
  nodes0 : Option (List Point)
  edges : List (Point × Point)
  labels : List (String × Point)
  xlim : ℚ × ℚ
  ylim : ℚ × ℚ
  ind : Option Nat
  moveFrom : Option (ℚ × ℚ)
deriving DecidableEq, Repr

/-- Edge update of the drag branch: if posA equals the dragged node's previous
position it is replaced (and posB untouched even if it also matches);
otherwise posB is replaced when it matches. -/
def updateEdge (target p : Point) (e : Point × Point) : Point × Point :=
  if e.1 = target then (p, e.2)
  else if e.2 = target then (e.1, p)
  else e

/-- Label update of the drag branch: every label whose position equals the
previous node position moves to the new one. -/
def updateLabel (target p : Point) (kv : String × Point) : String × Point :=
  if kv.2 = target then (kv.1, p) else kv

/-- The body of the drag branch of `motion_notify_callback`: remember the
selected node's previous position, write the event's data position into the
offsets, update matching edge endpoints and labels, and mirror the offsets
into nodes0 when present. -/
def dragUpdate (s : DNState) (i : Nat) (e : Event) : DNState :=
  let p : Point := (e.xdata, e.ydata)
  let target := s.nodes.getD i (0, 0)
  let newNodes := s.nodes.set i p
  { s with
    nodes := newNodes
    nodes0 := s.nodes0.map fun _ => newNodes
    edges := s.edges.map (updateEdge target p)
    labels := s.labels.map (updateLabel target p) }

/-- The body of the pan branch of `motion_notify_callback`: convert the
screen delta from the anchor into a data delta (the y component divided by
the aspect ratio xrange/yrange), shift both limits by its negative, and
re-anchor at the current screen position. -/
def panUpdate (s : DNState) (mx my : ℚ) (e : Event) : DNState :=
  let cur_xrange := s.xlim.2 - s.xlim.1
  let cur_yrange := s.ylim.2 - s.ylim.1
  let xy_factor := cur_xrange / cur_yrange
  let xdata := (e.x - mx) / 300 * cur_xrange
  let ydata := (e.y - my) / 300 / xy_factor * cur_xrange
  { s with
    xlim := (s.xlim.1 - xdata, s.xlim.2 - xdata)
    ylim := (s.ylim.1 - ydata, s.ylim.2 - ydata)
    moveFrom := some (e.x, e.y) }

/-- The pointer-move callback.  Early outs: nothing selected and no anchor;
pointer outside the axes; primary button not held.  Then the pan branch when
an anchor is set, else the drag branch when a node is selected. -/
def motion_notify_callback (s : DNState) (e : Event) : DNState :=
  if s.ind = none ∧ s.moveFrom = none then s
  else if e.inaxes = false then s
  else if e.button ≠ some 1 then s
  else
    match s.moveFrom with
    | some (mx, my) => panUpdate s mx my e
    | none =>
      match s.ind with
      | some i => dragUpdate s i e
      | none => s

/-- The pointer-press callback: ignore events outside the axes, non-primary
buttons, and presses at screen x < 130 or y < 111; otherwise run the hit
tester, and when it finds no node set the panning anchor. -/
def button_press_callback (t : Affine2) (node_size : Option ℚ)
    (node_size_radius : List ℚ) (s : DNState) (e : Event) : DNState :=
  if e.inaxes = false then s
  else if e.button ≠ some 1 then s
  else if e.x < 130 ∨ e.y < 111 then s
  else
    let i := get_ind_under_point t s.nodes e.x e.y node_size node_size_radius
    match i with
    | none => { s with ind := none, moveFrom := some (e.x, e.y) }
    | some j => { s with ind := some j }

/-- The pointer-release callback: on primary-button release clear both the
selection and the panning anchor. -/
def button_release_callback (s : DNState) (e : Event) : DNState :=
  if e.button ≠ some 1 then s
  else { s with ind := none, moveFrom := none }

/-! ### Zoom handler

The handler built by `zoom_factory(self.ax, 0.9)`.  It reads the scroll
direction from `event.button` (the strings up and down for wheel ticks).
The cursor data position is read by the source but never used, so it does
not appear here.  The scale factors involve natural logarithms, hence the
real-valued viewport. -/

/-- Scroll direction carried by a scroll event's button field. -/
inductive ScrollButton where
  | up : ScrollButton
  | down : ScrollButton
  | other : String → ScrollButton
deriving DecidableEq, Repr

/-- Scale factor chosen by `zoom_fun`: log(1/base) on up, log base on down,
and 1 on anything else (the logged should-never-happen branch). -/
noncomputable def zoom_scale_factor (base_scale : ℝ) : ScrollButton → ℝ
  | .up => Real.log (1 / base_scale)
  | .down => Real.log base_scale
  | .other _ => 1

/-- One scroll tick of `zoom_fun`: each limit moves outward by the half-range
times the scale factor (symmetric about the window center). -/
noncomputable def zoom_fun (base_scale : ℝ) (xlim ylim : ℝ × ℝ)
    (button : ScrollButton) : (ℝ × ℝ) × (ℝ × ℝ) :=
  let cur_xrange := (xlim.2 - xlim.1) * (1 / 2)
  let cur_yrange := (ylim.2 - ylim.1) * (1 / 2)
  let scale_factor := zoom_scale_factor base_scale button
  ((xlim.1 - cur_xrange * scale_factor, xlim.2 + cur_xrange * scale_factor),
   (ylim.1 - cur_yrange * scale_factor, ylim.2 + cur_yrange * scale_factor))

/-- The zoom handler as installed by the constructor, with base scale 0.9. -/
noncomputable def zoomStep (xlim ylim : ℝ × ℝ) (button : ScrollButton) :
    (ℝ × ℝ) × (ℝ × ℝ) :=
  zoom_fun (9 / 10) xlim ylim button

/-! ### Persistence flow

The save/load worker threads.  File contents are modelled as lists of
characters.  Coordinates written and parsed by the flow are decimal numbers
(mantissa and fractional length), matching what Python's str produces for a
float and what float() accepts back. -/

/-- A decimal literal `m / 10^e`, the exact value of a finite-decimal token
such as -12.75 (m = -1275, e = 2). -/
structure Dec where
  m : ℤ
  e : ℕ
deriving DecidableEq, Repr

/-- Digit character of a value below ten. -/
def digitChar (d : ℕ) : Char :=
  if d = 0 then '0' else if d = 1 then '1' else if d = 2 then '2'
  else if d = 3 then '3' else if d = 4 then '4' else if d = 5 then '5'
  else if d = 6 then '6' else if d = 7 then '7' else if d = 8 then '8'
  else '9'

/-- Value of a digit character, none for non-digits. -/
def digitVal (c : Char) : Option ℕ :=
  if c = '0' then some 0 else if c = '1' then some 1 else if c = '2' then some 2
  else if c = '3' then some 3 else if c = '4' then some 4 else if c = '5' then some 5
  else if c = '6' then some 6 else if c = '7' then some 7 else if c = '8' then some 8
  else if c = '9' then some 9 else none

/-- Base-ten digit writer with explicit fuel (n itself bounds the number of
divisions, so `natChars` below always has enough). -/
def natCharsAux : ℕ → ℕ → List Char
  | 0, _ => []
  | fuel + 1, n =>
    if n < 10 then [digitChar n]
    else natCharsAux fuel (n / 10) ++ [digitChar (n % 10)]

/-- Base-ten digit string of a natural number, most significant first. -/
def natChars (n : ℕ) : List Char := natCharsAux (n + 1) n

/-- Value of a digit string (most significant first). -/
def digitsVal (l : List Char) : ℕ :=
  l.foldl (fun a c => a * 10 + (digitVal c).getD 0) 0

/-- Whether every character of the string is a digit. -/
def isDigits (l : List Char) : Bool :=
  l.all fun c => (digitVal c).isSome

/-- Left-pads a digit string with zeros up to length e. -/
def padZeros (e : ℕ) (l : List Char) : List Char :=
  List.replicate (e - l.length) '0' ++ l

/-- Python's str.split(sep): n separators yield n+1 pieces, empty pieces
included. -/
def pySplit (c : Char) : List Char → List (List Char)
  | [] => [[]]
  | a :: rest =>
    let r := pySplit c rest
    if a = c then [] :: r
    else (a :: r.headD []) :: r.tail

/-- Whitespace as removed by str.strip at the ends of a line. -/
def isSpaceCh (c : Char) : Bool :=
  c = ' ' ∨ c = '\t' ∨ c = '\n' ∨ c = '\r'

/-- Python's str.strip: drop whitespace from both ends. -/
def stripChars (l : List Char) : List Char :=
  ((l.dropWhile isSpaceCh).reverse.dropWhile isSpaceCh).reverse

/-- Python's readlines on the whole content: pieces between newlines, each
line keeping its text only (the trailing newline is dropped here because
every parsed line is stripped anyway); a final piece after the last newline
appears only when non-empty. -/
def readLines (s : List Char) : List (List Char) :=
  if s = [] then []
  else
    let ps := pySplit '\n' s
    if ps.getLast? = some [] then ps.dropLast else ps

/-- Unsigned decimal token parse: digits with an optional single dot, at
least one digit overall, as accepted by float() for the strings this flow
produces. -/
def parseUDec (s : List Char) : Option (ℕ × ℕ) :=
  match pySplit '.' s with
  | [ip] => if ip ≠ [] ∧ isDigits ip then some (digitsVal ip, 0) else none
  | [ip, fp] =>
    if (ip ≠ [] ∨ fp ≠ []) ∧ isDigits ip ∧ isDigits fp then
      some (digitsVal ip * 10 ^ fp.length + digitsVal fp, fp.length)
    else none
  | _ => none

/-- Signed decimal token parse, float(x) on the flow's tokens. -/
def parseDec (s : List Char) : Option Dec :=
  match s with
  | [] => none
  | c :: rest =>
    if c = '-' then (parseUDec rest).map fun p => ⟨-(p.1 : ℤ), p.2⟩
    else (parseUDec (c :: rest)).map fun p => ⟨(p.1 : ℤ), p.2⟩

/-- Digit string of a nonnegative decimal with at least one fractional
digit: integer part, dot, fractional part padded to its full width. -/
def decCharsNN (n eff : ℕ) : List Char :=
  natChars (n / 10 ^ eff) ++ '.' :: padZeros eff (natChars (n % 10 ^ eff))

/-- The token str(x) writes for the float of a decimal literal: sign,
integer part, dot, fractional part (at least one fractional digit, as
Python prints floats). -/
def decToChars (d : Dec) : List Char :=
  let eff := max d.e 1
  let n := d.m.natAbs * 10 ^ (eff - d.e)
  (if d.m < 0 then ['-'] else []) ++ decCharsNN n eff

/-- One line of the save format: identifier, colon, x, comma, y. -/
def lineOf (kv : List Char × Dec × Dec) : List Char :=
  kv.1 ++ ':' :: (decToChars kv.2.1 ++ ',' :: decToChars kv.2.2)

/-- The string written by `saving_thread`: one such line per label, each
terminated by a newline. -/
def saveString (labels : List (List Char × Dec × Dec)) : List Char :=
  (labels.map fun kv => lineOf kv ++ ['\n']).flatten

/-- One iteration of the parse loop of `load_thread`:
`node, xy = line.strip().split(':')` then `x, y = xy.split(',')` then
float on both parts; any failed unpack or conversion raises, modelled as
none. -/
def parseLine (l : List Char) : Option (List Char × Dec × Dec) :=
  match pySplit ':' (stripChars l) with
  | [node, xy] =>
    match pySplit ',' xy with
    | [xs, ys] =>
      match parseDec xs, parseDec ys with
      | some x, some y => some (node, x, y)
      | _, _ => none
    | _ => none
  | _ => none

/-- The whole parse loop: every line must parse, in order; the first raise
aborts the task. -/
def parseFile (content : List Char) : Option (List (List Char × Dec × Dec)) :=
  (readLines content).mapM parseLine

/-- A label text artist: its text, position, and font attributes as set by
draw_networkx_labels. -/
structure LabelArt where
  text : List Char
  pos : Dec × Dec
  fontSize : ℚ
  fontColor : String
deriving DecidableEq, Repr

/-- An edge patch artist: endpoint positions and line width. -/
structure EdgeArt where
  posA : Dec × Dec
  posB : Dec × Dec
  width : Option ℚ
deriving DecidableEq, Repr

/-- A node collection artist: offsets and the visual attributes passed to
draw_networkx_nodes. -/
structure NodesArt where
  offsets : List (Dec × Dec)
  size : Option ℚ
  color : String
  shape : String
  alpha : Option ℚ
deriving DecidableEq, Repr

/-- The graph G handed to the constructor: node identifiers and edge pairs. -/
structure Graph where
  nodeIds : List (List Char)
  edgeList : List (List Char × List Char)
deriving DecidableEq, Repr

/-- The state touched by the persistence flow: the graph, the three artifact
groups (plus the optional mirror collection), the constructor-captured
node_size and weights, and the Load button caption. -/
structure AppState where
  G : Graph
  labels : List LabelArt
  edges : List EdgeArt
  nodes : NodesArt
  nodes0 : Option NodesArt
  node_size : Option ℚ
  weights : Option ℚ
  btn2Label : String
deriving DecidableEq, Repr

/-- Position dictionary lookup built from the parsed lines: later duplicate
keys overwrite earlier ones (Python dict assignment); none when the key is
absent (a KeyError in the program). -/
def lookupPos? (pm : List (List Char × Dec × Dec)) (k : List Char) :
    Option (Dec × Dec) :=
  ((pm.filter fun kv => decide (kv.1 = k)).getLast?).map fun kv => kv.2

/-- Whether the parsed file holds a position for the given identifier; the
draw calls of the rebuild raise a KeyError exactly when this is false for a
node they index. -/
def hasKey (pm : List (List Char × Dec × Dec)) (k : List Char) : Bool :=
  (lookupPos? pm k).isSome

/-- The position the dictionary holds for a present key; only evaluated in
branches guarded by `hasKey` for every indexed node, where the default is
unreachable. -/
def lookupPos (pm : List (List Char × Dec × Dec)) (k : List Char) : Dec × Dec :=
  (lookupPos? pm k).getD (⟨0, 0⟩, ⟨0, 0⟩)

/-- The load worker: a cancelled dialog only restores the caption; a file is
parsed line by line, and on success the axes are cleared and the label, edge,
and node artifacts rebuilt from the parsed positions, with width from the
captured weights, size from the captured node_size, and the colors, shape,
alpha and font attributes hardcoded in the rebuild calls; finally the caption
is restored.  A parse failure aborts the thread before the clear, leaving the
state untouched (the caption included).  The rebuild itself can raise: the
labels call indexes the position of every graph node and the edges call the
positions of every edge endpoint, so a node absent from the parsed file
raises a KeyError at the first call that indexes it — the remaining attribute
assignments and the caption restore never run (the axes clear that precedes
the raise is a canvas effect outside this state).  The guards below replay
the call order: a missing graph node aborts before any attribute is
assigned; with all graph nodes present but an edge endpoint missing (a graph
the library itself never produces), the labels attribute has already been
reassigned when the edges call raises. -/
def load_thread (s : AppState) (file : Option (List Char)) : AppState :=
  match file with
  | none => { s with btn2Label := "Load positions" }
  | some content =>
    match parseFile content with
    | none => s
    | some pm =>
      if s.G.nodeIds.all (hasKey pm) then
        if s.G.edgeList.all (fun uv => hasKey pm uv.1 && hasKey pm uv.2) then
          { s with
            labels := s.G.nodeIds.map fun n =>
              { text := n, pos := lookupPos pm n, fontSize := 8, fontColor := "k" }
            edges := s.G.edgeList.map fun uv =>
              { posA := lookupPos pm uv.1, posB := lookupPos pm uv.2,
                width := s.weights }
            nodes0 := s.nodes0.map fun _ =>
              { offsets := s.G.nodeIds.map (lookupPos pm), size := s.node_size,
                color := "w", shape := "o", alpha := some 1 }
            nodes := { offsets := s.G.nodeIds.map (lookupPos pm), size := s.node_size,
                       color := "b", shape := "o", alpha := some (3 / 10) }
            btn2Label := "Load positions" }
        else
          { s with
            labels := s.G.nodeIds.map fun n =>
              { text := n, pos := lookupPos pm n, fontSize := 8, fontColor := "k" } }
      else s

/-- The string built by the save worker from the current label artists. -/
def saveOutput (s : AppState) : List Char :=
  saveString (s.labels.map fun la => (la.text, la.pos))

/-! ### Theorems -/

/-- Bridging lemma: over the reals, `sqrtGeB s r` decides `r ≤ sqrt s`
whenever `0 ≤ s`, so the squared-distance embedding of the hit test agrees
with the source's square-root form. -/
theorem sqrtGeB_iff (s r : ℚ) (_hs : 0 ≤ s) :
    sqrtGeB s r = true ↔ (r : ℝ) ≤ Real.sqrt (s : ℚ) := by
  unfold sqrtGeB
  simp only [Bool.or_eq_true, decide_eq_true_eq]
  constructor
  · rintro (h | h)
    · exact le_trans (by exact_mod_cast h) (Real.sqrt_nonneg _)
    · have h' : (r : ℝ) * r ≤ (s : ℚ) := by exact_mod_cast h
      rcases le_or_lt (r : ℝ) 0 with hr | hr
      · exact le_trans hr (Real.sqrt_nonneg _)
      · rw [Real.le_sqrt' hr]
        calc (r : ℝ) ^ 2 = r * r := sq (r : ℝ)
        _ ≤ _ := h'
  · intro h
    rcases le_or_lt r 0 with hr | hr
    · exact Or.inl hr
    · right
      have hr' : (0 : ℝ) < r := by exact_mod_cast hr
      rw [Real.le_sqrt' hr'] at h
      have h2 : (r : ℝ) * r ≤ (s : ℚ) := by
        calc (r : ℝ) * r = r ^ 2 := (sq (r : ℝ)).symm
        _ ≤ _ := h
      exact_mod_cast h2

/-- Invariant of the argmin scan: the returned index is the incoming best or
lies in the scanned range; the value there is at most the incoming best,
at most every scanned element, strictly below every scanned element left of
the returned index, and strictly below the incoming best whenever the best
was replaced.  First occurrence wins because replacement needs a strict
decrease. -/
theorem argminFrom_spec (xs : List ℚ) : ∀ (b : ℚ) (bi i : Nat), bi < i →
    (argminFrom xs b bi i = bi ∨
      (i ≤ argminFrom xs b bi i ∧ argminFrom xs b bi i < i + xs.length)) ∧
    argminVal xs b bi i ≤ b ∧
    (∀ j < xs.length, argminVal xs b bi i ≤ xs.getD j 0) ∧
    (∀ j < xs.length, i + j < argminFrom xs b bi i → argminVal xs b bi i < xs.getD j 0) ∧
    (argminFrom xs b bi i ≠ bi → argminVal xs b bi i < b) := by
  induction xs with
  | nil =>
    intro b bi i hbi
    refine ⟨Or.inl rfl, ?_, ?_, ?_, ?_⟩ <;> simp [argminFrom, argminVal]
  | cons x xs ih =>
    intro b bi i hbi
    by_cases hx : x < b
    · obtain ⟨H1, H2, H3, H4, H5⟩ := ih x i (i + 1) (by omega)
      have hr : argminFrom (x :: xs) b bi i = argminFrom xs x i (i + 1) := by
        simp [argminFrom, hx]
      have hrange : i ≤ argminFrom xs x i (i + 1) ∧
          argminFrom xs x i (i + 1) < i + (xs.length + 1) := by
        rcases H1 with h | h
        · omega
        · omega
      have hval : argminVal (x :: xs) b bi i = argminVal xs x i (i + 1) := by
        unfold argminVal
        rw [hr]
        rcases Nat.eq_or_lt_of_le hrange.1 with he | hlt
        · rw [if_neg (by omega), if_pos he.symm]
          have h0 : argminFrom xs x i (i + 1) - i = 0 := by omega
          rw [h0]
          rfl
        · rw [if_neg (by omega), if_neg (by omega)]
          have h1 : argminFrom xs x i (i + 1) - i =
              (argminFrom xs x i (i + 1) - (i + 1)) + 1 := by omega
          rw [h1, List.getD_cons_succ]
      refine ⟨?_, ?_, ?_, ?_, ?_⟩
      · rw [hr]
        right
        simp only [List.length_cons]
        omega
      · rw [hval]
        exact le_of_lt (lt_of_le_of_lt H2 hx)
      · intro j hj
        rw [hval]
        cases j with
        | zero =>
          rw [List.getD_cons_zero]
          exact H2
        | succ j =>
          rw [List.getD_cons_succ]
          exact H3 j (by simpa using hj)
      · intro j hj hlt2
        rw [hval]
        rw [hr] at hlt2
        cases j with
        | zero =>
          rw [List.getD_cons_zero]
          exact H5 (by omega)
        | succ j =>
          rw [List.getD_cons_succ]
          exact H4 j (by simpa using hj) (by omega)
      · intro _
        rw [hval]
        exact lt_of_le_of_lt H2 hx
    · obtain ⟨H1, H2, H3, H4, H5⟩ := ih b bi (i + 1) (by omega)
      have hr : argminFrom (x :: xs) b bi i = argminFrom xs b bi (i + 1) := by
        simp [argminFrom, hx]
      have hval : argminVal (x :: xs) b bi i = argminVal xs b bi (i + 1) := by
        unfold argminVal
        rw [hr]
        by_cases hrbi : argminFrom xs b bi (i + 1) = bi
        · rw [if_pos hrbi, if_pos hrbi]
        · rw [if_neg hrbi, if_neg hrbi]
          have hb2 : i + 1 ≤ argminFrom xs b bi (i + 1) := by
            rcases H1 with h | h
            · exact absurd h hrbi
            · exact h.1
          have h1 : argminFrom xs b bi (i + 1) - i =
              (argminFrom xs b bi (i + 1) - (i + 1)) + 1 := by omega
          rw [h1, List.getD_cons_succ]
      refine ⟨?_, ?_, ?_, ?_, ?_⟩
      · rw [hr]
        rcases H1 with h | h
        · exact Or.inl h
        · right
          simp only [List.length_cons]
          omega
      · rw [hval]
        exact H2
      · intro j hj
        rw [hval]
        cases j with
        | zero =>
          rw [List.getD_cons_zero]
          exact le_trans H2 (not_lt.mp hx)
        | succ j =>
          rw [List.getD_cons_succ]
          exact H3 j (by simpa using hj)
      · intro j hj hlt2
        rw [hval]
        rw [hr] at hlt2
        cases j with
        | zero =>
          rw [List.getD_cons_zero]
          have hne : argminFrom xs b bi (i + 1) ≠ bi := by omega
          exact lt_of_lt_of_le (H5 hne) (not_lt.mp hx)
        | succ j =>
          rw [List.getD_cons_succ]
          exact H4 j (by simpa using hj) (by omega)
      · intro hne
        rw [hr] at hne
        rw [hval]
        exact H5 hne

/-- Argmin semantics of `npArgmin` on a non-empty list: the returned index is
in range, its element is a minimum, and it is strictly below every element at
a smaller index (first occurrence wins on ties). -/
theorem npArgmin_spec (l : List ℚ) (h : l ≠ []) :
    npArgmin l < l.length ∧
    (∀ j < l.length, l.getD (npArgmin l) 0 ≤ l.getD j 0) ∧
    (∀ j < npArgmin l, l.getD (npArgmin l) 0 < l.getD j 0) := by
  match l with
  | x :: xs =>
    obtain ⟨H1, H2, H3, H4, H5⟩ := argminFrom_spec xs x 0 1 (by omega)
    have hnp : npArgmin (x :: xs) = argminFrom xs x 0 1 := rfl
    have hval : (x :: xs).getD (npArgmin (x :: xs)) 0 = argminVal xs x 0 1 := by
      rw [hnp]
      unfold argminVal
      by_cases h0 : argminFrom xs x 0 1 = 0
      · rw [if_pos h0, h0]
        rfl
      · have hb2 : 1 ≤ argminFrom xs x 0 1 := by
          rcases H1 with hh | hh
          · exact absurd hh h0
          · exact hh.1
        rw [if_neg h0]
        have h1 : argminFrom xs x 0 1 = (argminFrom xs x 0 1 - 1) + 1 := by omega
        conv_lhs => rw [h1]
        rw [List.getD_cons_succ]
    refine ⟨?_, ?_, ?_⟩
    · rw [hnp]
      simp only [List.length_cons]
      rcases H1 with hh | hh
      · omega
      · omega
    · intro j hj
      rw [hval]
      cases j with
      | zero =>
        rw [List.getD_cons_zero]
        exact H2
      | succ j =>
        rw [List.getD_cons_succ]
        exact H3 j (by simpa using hj)
    · intro j hj
      rw [hval]
      rw [hnp] at hj
      cases j with
      | zero =>
        rw [List.getD_cons_zero]
        exact H5 (by omega)
      | succ j =>
        rw [List.getD_cons_succ]
        have hjlen : j < xs.length := by
          rcases H1 with hh | hh
          · omega
          · omega
        exact H4 j hjlen (by omega)

/-- C2: on a non-empty node set the hit tester selects the first index of
minimum screen distance (squared distances compare identically), and accepts
it exactly when that distance is strictly below the fixed threshold
epsilon = 30 (no per-node sizes) or strictly below that node's own radius
(per-node sizes supplied); in particular, with no per-node sizes, if every
node is at squared distance at least 30², no selection is returned. -/
theorem get_ind_under_point_spec (t : Affine2) (offsets : List Point) (ex ey : ℚ)
    (node_size : Option ℚ) (node_size_radius : List ℚ) (h : offsets ≠ []) :
    ∃ i : Nat, i < offsets.length ∧
      (∀ j < offsets.length,
        distSq t ex ey (offsets.getD i (0, 0)) ≤ distSq t ex ey (offsets.getD j (0, 0))) ∧
      (∀ j < i,
        distSq t ex ey (offsets.getD i (0, 0)) < distSq t ex ey (offsets.getD j (0, 0))) ∧
      (node_size = none →
        get_ind_under_point t offsets ex ey node_size node_size_radius =
          if distSq t ex ey (offsets.getD i (0, 0)) < epsilon * epsilon then some i
          else none) ∧
      (∀ sz : ℚ, node_size = some sz →
        get_ind_under_point t offsets ex ey node_size node_size_radius =
          if 0 < node_size_radius.getD i 0 ∧
             distSq t ex ey (offsets.getD i (0, 0)) <
               node_size_radius.getD i 0 * node_size_radius.getD i 0 then some i
          else none) ∧
      ((node_size = none ∧ ∀ j < offsets.length,
          epsilon * epsilon ≤ distSq t ex ey (offsets.getD j (0, 0))) →
        get_ind_under_point t offsets ex ey node_size node_size_radius = none) := by
  have hdne : offsets.map (distSq t ex ey) ≠ [] := by
    simpa using h
  obtain ⟨hlen, hmin, hstrict⟩ := npArgmin_spec (offsets.map (distSq t ex ey)) hdne
  have hlenm : (offsets.map (distSq t ex ey)).length = offsets.length := by
    simp
  have hmap : ∀ j, j < offsets.length →
      (offsets.map (distSq t ex ey)).getD j 0 =
        distSq t ex ey (offsets.getD j (0, 0)) := by
    intro j hj
    rw [List.getD_eq_getElem?_getD, List.getD_eq_getElem?_getD, List.getElem?_map,
      List.getElem?_eq_getElem hj]
    rfl
  have hlen' : npArgmin (offsets.map (distSq t ex ey)) < offsets.length := by
    rw [← hlenm]
    exact hlen
  refine ⟨npArgmin (offsets.map (distSq t ex ey)), hlen', ?_, ?_, ?_, ?_, ?_⟩
  · intro j hj
    have := hmin j (by rw [hlenm]; exact hj)
    rwa [hmap _ hlen', hmap _ hj] at this
  · intro j hj
    have hj' : j < offsets.length := lt_trans hj hlen'
    have := hstrict j hj
    rwa [hmap _ hlen', hmap _ hj'] at this
  · intro hns
    subst hns
    show (if sqrtGeB ((offsets.map (distSq t ex ey)).getD
        (npArgmin (offsets.map (distSq t ex ey))) 0) epsilon then none
      else some (npArgmin (offsets.map (distSq t ex ey)))) = _
    rw [hmap _ hlen']
    by_cases hc : distSq t ex ey
        (offsets.getD (npArgmin (offsets.map (distSq t ex ey))) (0, 0)) <
        epsilon * epsilon
    · have hb : sqrtGeB (distSq t ex ey
          (offsets.getD (npArgmin (offsets.map (distSq t ex ey))) (0, 0))) epsilon
          = false := by
        unfold sqrtGeB epsilon
        unfold epsilon at hc
        simp only [Bool.or_eq_false_iff, decide_eq_false_iff_not, not_le]
        constructor
        · norm_num
        · linarith
      rw [hb, if_pos hc]
      rfl
    · have hb : sqrtGeB (distSq t ex ey
          (offsets.getD (npArgmin (offsets.map (distSq t ex ey))) (0, 0))) epsilon
          = true := by
        unfold sqrtGeB epsilon
        unfold epsilon at hc
        simp only [Bool.or_eq_true, decide_eq_true_eq]
        right
        linarith [not_lt.mp hc]
      rw [hb, if_neg hc]
      rfl
  · intro sz hns
    subst hns
    show (if sqrtGeB ((offsets.map (distSq t ex ey)).getD
        (npArgmin (offsets.map (distSq t ex ey))) 0)
        (node_size_radius.getD (npArgmin (offsets.map (distSq t ex ey))) 0) then none
      else some (npArgmin (offsets.map (distSq t ex ey)))) = _
    rw [hmap _ hlen']
    by_cases hc : 0 < node_size_radius.getD (npArgmin (offsets.map (distSq t ex ey))) 0 ∧
        distSq t ex ey (offsets.getD (npArgmin (offsets.map (distSq t ex ey))) (0, 0)) <
          node_size_radius.getD (npArgmin (offsets.map (distSq t ex ey))) 0 *
            node_size_radius.getD (npArgmin (offsets.map (distSq t ex ey))) 0
    · have hb : sqrtGeB (distSq t ex ey
          (offsets.getD (npArgmin (offsets.map (distSq t ex ey))) (0, 0)))
          (node_size_radius.getD (npArgmin (offsets.map (distSq t ex ey))) 0)
          = false := by
        unfold sqrtGeB
        simp only [Bool.or_eq_false_iff, decide_eq_false_iff_not, not_le]
        exact ⟨hc.1, hc.2⟩
      rw [hb, if_pos hc]
      rfl
    · have hb : sqrtGeB (distSq t ex ey
          (offsets.getD (npArgmin (offsets.map (distSq t ex ey))) (0, 0)))
          (node_size_radius.getD (npArgmin (offsets.map (distSq t ex ey))) 0)
          = true := by
        unfold sqrtGeB
        simp only [Bool.or_eq_true, decide_eq_true_eq]
        rcases not_and_or.mp hc with h1 | h1
        · exact Or.inl (not_lt.mp h1)
        · exact Or.inr (not_lt.mp h1)
      rw [hb, if_neg hc]
      rfl
  · rintro ⟨hns, hall⟩
    subst hns
    show (if sqrtGeB ((offsets.map (distSq t ex ey)).getD
        (npArgmin (offsets.map (distSq t ex ey))) 0) epsilon then none
      else some (npArgmin (offsets.map (distSq t ex ey)))) = _
    rw [hmap _ hlen']
    have hb : sqrtGeB (distSq t ex ey
        (offsets.getD (npArgmin (offsets.map (distSq t ex ey))) (0, 0))) epsilon
        = true := by
      unfold sqrtGeB
      simp only [Bool.or_eq_true, decide_eq_true_eq]
      right
      have := hall _ hlen'
      unfold epsilon at this ⊢
      linarith
    rw [hb]
    rfl

theorem get_ind_under_point_spec_witness :
    ([((3 : ℚ), (4 : ℚ)), ((100 : ℚ), (100 : ℚ))] ≠ ([] : List Point)) ∧
    ∃ i : Nat, i < ([((3 : ℚ), (4 : ℚ)), ((100 : ℚ), (100 : ℚ))] : List Point).length ∧
      (∀ j < ([((3 : ℚ), (4 : ℚ)), ((100 : ℚ), (100 : ℚ))] : List Point).length,
        distSq ⟨1, 0, 1, 0⟩ 0 0
            (([((3 : ℚ), (4 : ℚ)), ((100 : ℚ), (100 : ℚ))] : List Point).getD i (0, 0)) ≤
          distSq ⟨1, 0, 1, 0⟩ 0 0
            (([((3 : ℚ), (4 : ℚ)), ((100 : ℚ), (100 : ℚ))] : List Point).getD j (0, 0))) ∧
      (∀ j < i,
        distSq ⟨1, 0, 1, 0⟩ 0 0
            (([((3 : ℚ), (4 : ℚ)), ((100 : ℚ), (100 : ℚ))] : List Point).getD i (0, 0)) <
          distSq ⟨1, 0, 1, 0⟩ 0 0
            (([((3 : ℚ), (4 : ℚ)), ((100 : ℚ), (100 : ℚ))] : List Point).getD j (0, 0))) ∧
      ((none : Option ℚ) = none →
        get_ind_under_point ⟨1, 0, 1, 0⟩ [((3 : ℚ), (4 : ℚ)), ((100 : ℚ), (100 : ℚ))] 0 0
            none [] =
          if distSq ⟨1, 0, 1, 0⟩ 0 0
              (([((3 : ℚ), (4 : ℚ)), ((100 : ℚ), (100 : ℚ))] : List Point).getD i (0, 0)) <
              epsilon * epsilon then some i
          else none) ∧
      (∀ sz : ℚ, (none : Option ℚ) = some sz →
        get_ind_under_point ⟨1, 0, 1, 0⟩ [((3 : ℚ), (4 : ℚ)), ((100 : ℚ), (100 : ℚ))] 0 0
            none [] =
          if 0 < ([] : List ℚ).getD i 0 ∧
             distSq ⟨1, 0, 1, 0⟩ 0 0
               (([((3 : ℚ), (4 : ℚ)), ((100 : ℚ), (100 : ℚ))] : List Point).getD i (0, 0)) <
               ([] : List ℚ).getD i 0 * ([] : List ℚ).getD i 0 then some i
          else none) ∧
      (((none : Option ℚ) = none ∧
          ∀ j < ([((3 : ℚ), (4 : ℚ)), ((100 : ℚ), (100 : ℚ))] : List Point).length,
            epsilon * epsilon ≤ distSq ⟨1, 0, 1, 0⟩ 0 0
              (([((3 : ℚ), (4 : ℚ)), ((100 : ℚ), (100 : ℚ))] : List Point).getD j (0, 0))) →
        get_ind_under_point ⟨1, 0, 1, 0⟩ [((3 : ℚ), (4 : ℚ)), ((100 : ℚ), (100 : ℚ))] 0 0
            none [] = none) :=
  ⟨by decide,
    get_ind_under_point_spec ⟨1, 0, 1, 0⟩ [((3 : ℚ), 4), ((100 : ℚ), 100)] 0 0 none []
      (by decide)⟩

/-- C8: in the Idle state (no node selected and no panning anchor set), no
sequence of pointer-move events changes anything: every node position, edge
endpoint, label position, and the viewport limits are untouched. -/
theorem idle_motion_fixed (s : DNState) (h1 : s.ind = none) (h2 : s.moveFrom = none)
    (es : List Event) : es.foldl motion_notify_callback s = s := by
  induction es with
  | nil => rfl
  | cons e es ih =>
    have hstep : motion_notify_callback s e = s := by
      unfold motion_notify_callback
      rw [if_pos ⟨h1, h2⟩]
    rw [List.foldl_cons, hstep, ih]

theorem idle_motion_fixed_witness :
    (({ nodes := [((1 : ℚ), 2)], nodes0 := none, edges := [], labels := [],
        xlim := (0, 1), ylim := (0, 1), ind := none, moveFrom := none } : DNState).ind
      = none) ∧
    [({ x := 200, y := 200, xdata := 1, ydata := 1, inaxes := true,
        button := some 1 } : Event)].foldl motion_notify_callback
      { nodes := [((1 : ℚ), 2)], nodes0 := none, edges := [], labels := [],
        xlim := (0, 1), ylim := (0, 1), ind := none, moveFrom := none } =
      { nodes := [((1 : ℚ), 2)], nodes0 := none, edges := [], labels := [],
        xlim := (0, 1), ylim := (0, 1), ind := none, moveFrom := none } :=
  ⟨rfl, idle_motion_fixed _ rfl rfl _⟩

/-- C9: a primary-button press whose screen coordinates satisfy x < 130 or
y < 111 returns before the hit test: the state, the selection index and the
panning anchor included, is unchanged, so such a press can never start a
drag or a pan even with a node under the pointer. -/
theorem press_toolbar_guard (t : Affine2) (node_size : Option ℚ)
    (node_size_radius : List ℚ) (s : DNState) (e : Event)
    (hb : e.button = some 1) (h : e.x < 130 ∨ e.y < 111) :
    button_press_callback t node_size node_size_radius s e = s := by
  unfold button_press_callback
  by_cases hin : e.inaxes = false
  · rw [if_pos hin]
  · rw [if_neg hin, if_neg (by simp [hb]), if_pos h]

theorem press_toolbar_guard_witness :
    (({ x := 50, y := 200, xdata := 0, ydata := 0, inaxes := true,
        button := some 1 } : Event).button = some 1) ∧
    button_press_callback ⟨1, 0, 1, 0⟩ none []
      { nodes := [((0 : ℚ), 0)], nodes0 := none, edges := [], labels := [],
        xlim := (0, 1), ylim := (0, 1), ind := none, moveFrom := none }
      { x := 50, y := 200, xdata := 0, ydata := 0, inaxes := true, button := some 1 } =
      { nodes := [((0 : ℚ), 0)], nodes0 := none, edges := [], labels := [],
        xlim := (0, 1), ylim := (0, 1), ind := none, moveFrom := none } :=
  ⟨rfl, press_toolbar_guard _ _ _ _ _ rfl (Or.inl (by norm_num))⟩

/-- C6: a pointer move while panning with anchor (mx, my) shifts both x
limits down by (dx/300)·w and both y limits down by (dy/300)·h, where w and
h are the viewport's data width and height (the aspect-ratio division makes
the y delta proportional to h), keeps the width and height unchanged,
re-anchors at the current screen position, and touches no node, edge or
label. -/
theorem pan_motion_spec (s : DNState) (e : Event) (mx my : ℚ)
    (hm : s.moveFrom = some (mx, my)) (hin : e.inaxes = true)
    (hb : e.button = some 1)
    (hw : s.xlim.2 - s.xlim.1 ≠ 0) (_hh : s.ylim.2 - s.ylim.1 ≠ 0) :
    (motion_notify_callback s e).xlim =
      (s.xlim.1 - (e.x - mx) / 300 * (s.xlim.2 - s.xlim.1),
       s.xlim.2 - (e.x - mx) / 300 * (s.xlim.2 - s.xlim.1)) ∧
    (motion_notify_callback s e).ylim =
      (s.ylim.1 - (e.y - my) / 300 * (s.ylim.2 - s.ylim.1),
       s.ylim.2 - (e.y - my) / 300 * (s.ylim.2 - s.ylim.1)) ∧
    (motion_notify_callback s e).xlim.2 - (motion_notify_callback s e).xlim.1 =
      s.xlim.2 - s.xlim.1 ∧
    (motion_notify_callback s e).ylim.2 - (motion_notify_callback s e).ylim.1 =
      s.ylim.2 - s.ylim.1 ∧
    (motion_notify_callback s e).moveFrom = some (e.x, e.y) ∧
    (motion_notify_callback s e).nodes = s.nodes ∧
    (motion_notify_callback s e).edges = s.edges ∧
    (motion_notify_callback s e).labels = s.labels := by
  have hred : motion_notify_callback s e = panUpdate s mx my e := by
    unfold motion_notify_callback
    rw [hm]
    simp [hin, hb]
  rw [hred]
  unfold panUpdate
  have hy : (e.y - my) / 300 / ((s.xlim.2 - s.xlim.1) / (s.ylim.2 - s.ylim.1)) *
      (s.xlim.2 - s.xlim.1) = (e.y - my) / 300 * (s.ylim.2 - s.ylim.1) := by
    field_simp
    ring
  refine ⟨rfl, ?_, by ring, ?_, rfl, rfl, rfl, rfl⟩
  · simp only [hy]
  · simp only [hy]; ring

theorem pan_motion_spec_witness :
    (({ nodes := [], nodes0 := none, edges := [], labels := [],
        xlim := ((0 : ℚ), 10), ylim := ((0 : ℚ), 5), ind := none,
        moveFrom := some (200, 200) } : DNState).moveFrom = some (200, 200)) ∧
    ((10 : ℚ) - 0 ≠ 0) ∧
    (motion_notify_callback
      { nodes := [], nodes0 := none, edges := [], labels := [],
        xlim := ((0 : ℚ), 10), ylim := ((0 : ℚ), 5), ind := none,
        moveFrom := some (200, 200) }
      { x := 230, y := 260, xdata := 0, ydata := 0, inaxes := true,
        button := some 1 }).xlim =
      (0 - (230 - 200) / 300 * (10 - 0), 10 - (230 - 200) / 300 * (10 - 0)) :=
  ⟨rfl, by norm_num,
    (pan_motion_spec _ _ 200 200 rfl rfl rfl (by norm_num) (by norm_num)).1⟩

/-- C3: the unknown-scroll-direction branch is not a no-op.  The handler sets
scale factor 1 and then still applies it, so each axis grows by its
half-range on both sides: from limits (0, 2) a scroll event with an unknown
button value yields (-1, 3), not (0, 2). -/
theorem zoom_unknown_direction_not_noop :
    zoomStep ((0 : ℝ), 2) ((0 : ℝ), 2) (ScrollButton.other "left") =
      ((((-1 : ℝ)), 3), (((-1 : ℝ)), 3)) ∧
    (zoomStep ((0 : ℝ), 2) ((0 : ℝ), 2) (ScrollButton.other "left")).1 ≠
      ((0 : ℝ), 2) := by
  have h : zoomStep ((0 : ℝ), 2) ((0 : ℝ), 2) (ScrollButton.other "left") =
      ((((-1 : ℝ)), 3), (((-1 : ℝ)), 3)) := by
    unfold zoomStep zoom_fun zoom_scale_factor
    norm_num
  refine ⟨h, ?_⟩
  rw [h]
  intro hc
  have := congrArg Prod.fst hc
  norm_num at this

/-- Shared computation: one zoom-in tick followed by one zoom-out tick moves
every limit inward by the half-range times the square of log(10/9). -/
theorem zoomStep_up_down_eq (x0 x1 y0 y1 : ℝ) :
    zoomStep (zoomStep (x0, x1) (y0, y1) ScrollButton.up).1
        (zoomStep (x0, x1) (y0, y1) ScrollButton.up).2 ScrollButton.down =
      ((x0 + (x1 - x0) * (1 / 2) * Real.log ((10 : ℝ) / 9) ^ 2,
        x1 - (x1 - x0) * (1 / 2) * Real.log ((10 : ℝ) / 9) ^ 2),
       (y0 + (y1 - y0) * (1 / 2) * Real.log ((10 : ℝ) / 9) ^ 2,
        y1 - (y1 - y0) * (1 / 2) * Real.log ((10 : ℝ) / 9) ^ 2)) := by
  have h1 : (1 : ℝ) / (9 / 10) = 10 / 9 := by norm_num
  have h2 : Real.log ((9 : ℝ) / 10) = -Real.log ((10 : ℝ) / 9) := by
    rw [← Real.log_inv]
    norm_num
  unfold zoomStep zoom_fun zoom_scale_factor
  rw [h1, h2]
  simp only [Prod.mk.injEq]
  refine ⟨⟨by ring, by ring⟩, by ring, by ring⟩

/-- C4 counterexample: on the viewport with x limits (0, 2), a zoom-in tick
followed by a zoom-out tick does not restore the x limits (they contract to
(log(10/9)², 2 − log(10/9)²)). -/
theorem zoom_up_down_counterexample :
    (zoomStep (zoomStep ((0 : ℝ), 2) ((0 : ℝ), 2) ScrollButton.up).1
        (zoomStep ((0 : ℝ), 2) ((0 : ℝ), 2) ScrollButton.up).2
        ScrollButton.down).1 ≠ ((0 : ℝ), 2) := by
  rw [zoomStep_up_down_eq]
  have ha : 0 < Real.log ((10 : ℝ) / 9) := Real.log_pos (by norm_num)
  have ha2 : 0 < Real.log ((10 : ℝ) / 9) ^ 2 := pow_pos ha 2
  intro hc
  have h1 := congrArg Prod.fst hc
  simp only at h1
  nlinarith [ha2]

/-- C4 amended: a zoom-in tick followed by a zoom-out tick preserves the
window center but multiplies each axis range by 1 − log(10/9)², so a
non-degenerate viewport never returns to its original limits. -/
theorem zoom_up_down_contracts (x0 x1 y0 y1 : ℝ) :
    (zoomStep (zoomStep (x0, x1) (y0, y1) ScrollButton.up).1
        (zoomStep (x0, x1) (y0, y1) ScrollButton.up).2 ScrollButton.down).1.1 +
      (zoomStep (zoomStep (x0, x1) (y0, y1) ScrollButton.up).1
        (zoomStep (x0, x1) (y0, y1) ScrollButton.up).2 ScrollButton.down).1.2 =
      x0 + x1 ∧
    (zoomStep (zoomStep (x0, x1) (y0, y1) ScrollButton.up).1
        (zoomStep (x0, x1) (y0, y1) ScrollButton.up).2 ScrollButton.down).1.2 -
      (zoomStep (zoomStep (x0, x1) (y0, y1) ScrollButton.up).1
        (zoomStep (x0, x1) (y0, y1) ScrollButton.up).2 ScrollButton.down).1.1 =
      (x1 - x0) * (1 - Real.log ((10 : ℝ) / 9) ^ 2) ∧
    (zoomStep (zoomStep (x0, x1) (y0, y1) ScrollButton.up).1
        (zoomStep (x0, x1) (y0, y1) ScrollButton.up).2 ScrollButton.down).2.2 -
      (zoomStep (zoomStep (x0, x1) (y0, y1) ScrollButton.up).1
        (zoomStep (x0, x1) (y0, y1) ScrollButton.up).2 ScrollButton.down).2.1 =
      (y1 - y0) * (1 - Real.log ((10 : ℝ) / 9) ^ 2) ∧
    (x0 < x1 →
      (zoomStep (zoomStep (x0, x1) (y0, y1) ScrollButton.up).1
        (zoomStep (x0, x1) (y0, y1) ScrollButton.up).2 ScrollButton.down).1 ≠
        (x0, x1)) := by
  rw [zoomStep_up_down_eq]
  have ha : 0 < Real.log ((10 : ℝ) / 9) := Real.log_pos (by norm_num)
  have ha2 : 0 < Real.log ((10 : ℝ) / 9) ^ 2 := pow_pos ha 2
  refine ⟨by ring, by ring, by ring, ?_⟩
  intro hlt hc
  have h1 := congrArg Prod.fst hc
  simp only at h1
  nlinarith [ha2]

theorem zoom_up_down_contracts_witness :
    ((0 : ℝ) < 1) ∧
    (zoomStep (zoomStep ((0 : ℝ), 1) ((0 : ℝ), 1) ScrollButton.up).1
        (zoomStep ((0 : ℝ), 1) ((0 : ℝ), 1) ScrollButton.up).2
        ScrollButton.down).1 ≠ ((0 : ℝ), 1) :=
  ⟨by norm_num, (zoom_up_down_contracts 0 1 0 1).2.2.2 (by norm_num)⟩

/-- C1 counterexample: nodes [(-1, 3)] with the degenerate edge whose two
endpoints both equal (-1, 3); dragging node 0 to (0, 0) rewrites only the
first endpoint, so an endpoint equal to the node's previous position
survives unreplaced, contrary to the claim's "every edge endpoint". -/
theorem drag_double_endpoint_counterexample :
    (motion_notify_callback
      { nodes := [((-1 : ℚ), 3)], nodes0 := none,
        edges := [(((-1 : ℚ), (3 : ℚ)), ((-1 : ℚ), (3 : ℚ)))], labels := [],
        xlim := (0, 1), ylim := (0, 1), ind := some 0, moveFrom := none }
      { x := 200, y := 200, xdata := 0, ydata := 0, inaxes := true,
        button := some 1 }).edges =
      [(((0 : ℚ), (0 : ℚ)), ((-1 : ℚ), (3 : ℚ)))] ∧
    (((-1 : ℚ), (3 : ℚ)) : Point) ≠ ((0 : ℚ), (0 : ℚ)) := by
  constructor
  · decide
  · decide

/-- C1 amended: while node i is selected (no panning anchor), a pointer move
with the primary button held inside the axes sets node i to the pointer's
data position; each edge is updated against node i's previous position with
the first endpoint checked first: a matching first endpoint is replaced (the
second left as is, even if it also matches), otherwise a matching second
endpoint is replaced; every label at the previous position moves; all other
node entries, the viewport, the selection and the anchor are unchanged. -/
theorem drag_motion_spec (s : DNState) (e : Event) (i : Nat)
    (hi : s.ind = some i) (hm : s.moveFrom = none) (hlen : i < s.nodes.length)
    (hin : e.inaxes = true) (hb : e.button = some 1) :
    s.nodes[i]? = some (s.nodes.getD i (0, 0)) ∧
    (motion_notify_callback s e).nodes[i]? = some (e.xdata, e.ydata) ∧
    (∀ j : Nat, j ≠ i → (motion_notify_callback s e).nodes[j]? = s.nodes[j]?) ∧
    (∀ (j : Nat) (ed : Point × Point), s.edges[j]? = some ed →
      (motion_notify_callback s e).edges[j]? = some
        (if ed.1 = s.nodes.getD i (0, 0) then ((e.xdata, e.ydata), ed.2)
         else if ed.2 = s.nodes.getD i (0, 0) then (ed.1, (e.xdata, e.ydata))
         else ed)) ∧
    (∀ (j : Nat) (kv : String × Point), s.labels[j]? = some kv →
      (motion_notify_callback s e).labels[j]? = some
        (if kv.2 = s.nodes.getD i (0, 0) then (kv.1, (e.xdata, e.ydata))
         else kv)) ∧
    (motion_notify_callback s e).xlim = s.xlim ∧
    (motion_notify_callback s e).ylim = s.ylim ∧
    (motion_notify_callback s e).ind = s.ind ∧
    (motion_notify_callback s e).moveFrom = s.moveFrom := by
  have hred : motion_notify_callback s e = dragUpdate s i e := by
    unfold motion_notify_callback
    rw [hm, hi]
    simp [hin, hb]
  rw [hred]
  unfold dragUpdate
  refine ⟨?_, ?_, ?_, ?_, ?_, rfl, rfl, rfl, rfl⟩
  · rw [List.getD_eq_getElem?_getD, List.getElem?_eq_getElem hlen]
    rfl
  · exact List.getElem?_set_eq_of_lt _ hlen
  · intro j hj
    exact List.getElem?_set_ne (fun h => hj h.symm)
  · intro j ed hed
    simp only [List.getElem?_map, hed, Option.map_some]
    rfl
  · intro j kv hkv
    simp only [List.getElem?_map, hkv, Option.map_some]
    rfl

/-- The example of the claim: nodes (-1, 3) and (1, 1) with the edge between
them; dragging the first node to (0, 0) replaces the endpoint equal to
(-1, 3) and leaves the endpoint equal to (1, 1) untouched. -/
theorem drag_motion_spec_witness :
    (({ nodes := [((-1 : ℚ), 3), ((1 : ℚ), 1)], nodes0 := none,
        edges := [(((-1 : ℚ), (3 : ℚ)), ((1 : ℚ), (1 : ℚ)))],
        labels := [("1", ((-1 : ℚ), 3)), ("2", ((1 : ℚ), 1))],
        xlim := (0, 1), ylim := (0, 1), ind := some 0,
        moveFrom := none } : DNState).ind = some 0) ∧
    (motion_notify_callback
      { nodes := [((-1 : ℚ), 3), ((1 : ℚ), 1)], nodes0 := none,
        edges := [(((-1 : ℚ), (3 : ℚ)), ((1 : ℚ), (1 : ℚ)))],
        labels := [("1", ((-1 : ℚ), 3)), ("2", ((1 : ℚ), 1))],
        xlim := (0, 1), ylim := (0, 1), ind := some 0, moveFrom := none }
      { x := 200, y := 200, xdata := 0, ydata := 0, inaxes := true,
        button := some 1 }).edges =
      [(((0 : ℚ), (0 : ℚ)), ((1 : ℚ), (1 : ℚ)))] ∧
    (motion_notify_callback
      { nodes := [((-1 : ℚ), 3), ((1 : ℚ), 1)], nodes0 := none,
        edges := [(((-1 : ℚ), (3 : ℚ)), ((1 : ℚ), (1 : ℚ)))],
        labels := [("1", ((-1 : ℚ), 3)), ("2", ((1 : ℚ), 1))],
        xlim := (0, 1), ylim := (0, 1), ind := some 0, moveFrom := none }
      { x := 200, y := 200, xdata := 0, ydata := 0, inaxes := true,
        button := some 1 }).nodes[0]? = some ((0 : ℚ), (0 : ℚ)) := by
  refine ⟨rfl, by decide, ?_⟩
  exact (drag_motion_spec _ _ 0 rfl rfl (by decide) rfl rfl).2.1

/-- str.split never returns an empty piece list. -/
theorem pySplit_ne_nil (c : Char) (s : List Char) : pySplit c s ≠ [] := by
  cases s with
  | nil => simp [pySplit]
  | cons a t =>
    simp only [pySplit]
    split <;> simp

/-- Splitting a string that does not contain the separator yields the single
whole piece. -/
theorem pySplit_of_not_mem (c : Char) (s : List Char) (h : c ∉ s) :
    pySplit c s = [s] := by
  induction s with
  | nil => rfl
  | cons a t ih =>
    have ha : ¬a = c := fun hh => h (hh ▸ List.mem_cons_self a t)
    have ht : c ∉ t := fun hh => h (List.mem_cons_of_mem a hh)
    simp only [pySplit]
    rw [if_neg ha, ih ht]
    simp

/-- One failing element makes the whole option-valued traversal fail. -/
theorem mapM_eq_none {α β : Type} (f : α → Option β) (l : List α) (x : α)
    (hx : x ∈ l) (hf : f x = none) : l.mapM f = none := by
  induction l with
  | nil => cases hx
  | cons a t ih =>
    rw [List.mapM_cons]
    rcases List.mem_cons.mp hx with rfl | hm
    · rw [hf]
      rfl
    · cases hfa : f a with
      | none => rfl
      | some b =>
        rw [ih hm]
        rfl

/-- Characters of a stripped line come from the original line. -/
theorem mem_stripChars {c : Char} {l : List Char} (h : c ∈ stripChars l) : c ∈ l := by
  unfold stripChars at h
  rw [List.mem_reverse] at h
  have h2 : c ∈ (l.dropWhile isSpaceCh).reverse := (List.dropWhile_sublist _).subset h
  rw [List.mem_reverse] at h2
  exact (List.dropWhile_sublist _).subset h2

/-- A graph node with no position in the parsed file makes the first rebuild
call raise before any modelled attribute is assigned: the state, caption
included, is returned unchanged (the preceding axes clear is a canvas effect
outside this state). -/
theorem load_missing_node_aborts (s : AppState) (content : List Char)
    (pm : List (List Char × Dec × Dec)) (h : parseFile content = some pm)
    (hmiss : s.G.nodeIds.all (hasKey pm) = false) :
    load_thread s (some content) = s := by
  simp only [load_thread, h, hmiss]
  rfl

theorem load_missing_node_aborts_witness :
    parseFile ['1', ':', '0', '.', '5', ',', '1', '.', '5', '\n'] =
      some [(['1'], (⟨5, 1⟩ : Dec), (⟨15, 1⟩ : Dec))] ∧
    load_thread
      { G := { nodeIds := [['z']], edgeList := [] }, labels := [], edges := [],
        nodes := { offsets := [], size := none, color := "g", shape := "o", alpha := none },
        nodes0 := none, node_size := none, weights := none, btn2Label := "Loading..." }
      (some ['1', ':', '0', '.', '5', ',', '1', '.', '5', '\n']) =
      { G := { nodeIds := [['z']], edgeList := [] }, labels := [], edges := [],
        nodes := { offsets := [], size := none, color := "g", shape := "o", alpha := none },
        nodes0 := none, node_size := none, weights := none, btn2Label := "Loading..." } :=
  ⟨by decide,
    load_missing_node_aborts _ ['1', ':', '0', '.', '5', ',', '1', '.', '5', '\n']
      [(['1'], (⟨5, 1⟩ : Dec), (⟨15, 1⟩ : Dec))] (by decide) (by decide)⟩

/-- C10: a line without a colon, or whose coordinate part has no comma, makes
the parse loop raise before the axes are cleared: the whole state — label,
edge and node artifacts and the caption — is returned untouched, and the
caption keeps reading Loading... because the restore line is never reached. -/
theorem load_malformed_line_noop (s : AppState) (content : List Char)
    (l : List Char) (hl : l ∈ readLines content)
    (hbad : (':' ∉ l) ∨
      ∃ node xy, pySplit ':' (stripChars l) = [node, xy] ∧ ',' ∉ xy)
    (hcap : s.btn2Label = "Loading...") :
    load_thread s (some content) = s ∧
    (load_thread s (some content)).btn2Label = "Loading..." := by
  have hpl : parseLine l = none := by
    rcases hbad with h | ⟨node, xy, hsp, hc⟩
    · have hns : ':' ∉ stripChars l := fun hm => h (mem_stripChars hm)
      simp only [parseLine, pySplit_of_not_mem _ _ hns]
    · simp only [parseLine, hsp, pySplit_of_not_mem _ _ hc]
  have hpf : parseFile content = none := mapM_eq_none parseLine _ l hl hpl
  have hres : load_thread s (some content) = s := by
    simp only [load_thread, hpf]
  exact ⟨hres, by rw [hres, hcap]⟩

theorem load_malformed_line_noop_witness :
    (['a', 'b', 'c'] ∈ readLines ['a', 'b', 'c', '\n']) ∧
    load_thread
      { G := { nodeIds := [['1']], edgeList := [] }, labels := [], edges := [],
        nodes := { offsets := [], size := none, color := "g", shape := "o", alpha := none },
        nodes0 := none, node_size := none, weights := none, btn2Label := "Loading..." }
      (some ['a', 'b', 'c', '\n']) =
      { G := { nodeIds := [['1']], edgeList := [] }, labels := [], edges := [],
        nodes := { offsets := [], size := none, color := "g", shape := "o", alpha := none },
        nodes0 := none, node_size := none, weights := none, btn2Label := "Loading..." } :=
  ⟨by decide,
    (load_malformed_line_noop _ ['a', 'b', 'c', '\n'] ['a', 'b', 'c'] (by decide)
      (Or.inl (by decide)) rfl).1⟩

end DraggableNetwork
